import Mathlib

/-!
Shallow embedding of the geolonia/maps.geolonia.com single-page application
(src/src/App.tsx together with the feature-info click handler), with proofs of
the behavioural properties of its style resolver, hash codec, view-state
persistence, search pipeline and popup rendering.

Modelling conventions: JavaScript strings are Lean `String`s (the hash codec is
additionally modelled at the character-list level, ASCII bytes coinciding with
code points); JavaScript numbers are exact rationals `ℚ`, with the IEEE-754
values of the `Math` constants spelled out as rational literals; `undefined`
and optional values are `Option`; the live map object is an explicit record
threaded through the handlers.
-/

namespace MapsGeolonia

/-- JS `Math.round`: round half toward positive infinity, `⌊x + 1/2⌋`. -/
def jsRound (q : ℚ) : ℤ := ⌊q + 1/2⌋

/-- JS `String.prototype.split(sep)` for a one-character separator, on the
character list of the string: all segments, empty segments included. -/
def splitOnChar (sep : Char) : List Char → List (List Char)
  | [] => [[]]
  | c :: rest =>
    if c = sep then [] :: splitOnChar sep rest
    else
      match splitOnChar sep rest with
      | [] => [[c]]
      | seg :: segs => (c :: seg) :: segs

/-- The expression `style.split(';')[0]` from `styleIdToUrl`: the portion of the style id
before the first `;`. -/
def splitSemiHead (s : String) : String :=
  String.mk ((splitOnChar ';' s.toList).headD [])

/-- The test `style.startsWith('https://')`, expressed as a character-level prefix test
(Lean's builtin `String.startsWith` is byte-position based and equivalent on
these strings, but does not evaluate inside the kernel). -/
def isHttpsUrl (s : String) : Bool := List.isPrefixOf "https://".toList s.toList

/-- Function `styleIdToUrl` (src/src/App.tsx lines 31-39). `lang = none` models the
absent optional parameter; JS truthiness (`lang && lang !== 'auto'`) makes the
empty string fall through to the truncation branch exactly like `undefined`. -/
def styleIdToUrl (style : String) (lang : Option String) : String :=
  if isHttpsUrl style then style
  else
    match lang with
    | some l =>
      if l ≠ "" ∧ l ≠ "auto" then
        "https://cdn.geolonia.com/style/" ++ style ++ "/" ++ l ++ ".json"
      else splitSemiHead style
    | none => splitSemiHead style

/-- The spec's phrasing of truncation: the portion of the identifier before the
first `;` character, written directly as `takeWhile`. -/
def takeBeforeSemi (s : String) : String :=
  String.mk (s.toList.takeWhile (· ≠ ';'))

/-- A JSON value as relevant to the persisted `geolstate` object. The code casts
the parse result without validation, so a field read back from storage can hold
any JSON type. -/
inductive JsonVal
  | num (q : ℚ)
  | str (s : String)
  | boolean (b : Bool)
  | null
deriving DecidableEq

/-- The own properties (among the five state keys) of a JSON object parsed from
local storage; `none` means the key is absent from the stored object. -/
structure PartialState where
  z : Option JsonVal := none
  lat : Option JsonVal := none
  lng : Option JsonVal := none
  style : Option JsonVal := none
  lang : Option JsonVal := none
deriving DecidableEq

/-- Contents of the `geolstate` local-storage key: absent (`null` or the falsy
empty string), a string `JSON.parse` rejects, or a parsed value (a parse result
that is not an object contributes no fields and is `obj {}`). -/
inductive StoredValue
  | absent
  | malformed
  | obj (p : PartialState)
deriving DecidableEq

/-- A fully-populated state as produced by `{...INITIAL_STATE, ...parsed}`; the
TypeScript cast does not check field types, so fields are JSON values. -/
structure SavedState where
  z : JsonVal
  lat : JsonVal
  lng : JsonVal
  style : JsonVal
  lang : JsonVal
deriving DecidableEq

/-- Constant `INITIAL_STATE` (src/src/App.tsx lines 49-55). -/
def INITIAL_STATE : SavedState :=
  { z := .num 6, lng := .num 136.944, lat := .num 35.645,
    style := .str "geolonia/basic", lang := .str "auto" }

/-- JS object spread `{...base, ...p}` over the five state keys. -/
def spreadState (base : SavedState) (p : PartialState) : SavedState :=
  { z := p.z.getD base.z, lat := p.lat.getD base.lat, lng := p.lng.getD base.lng,
    style := p.style.getD base.style, lang := p.lang.getD base.lang }

/-- Function `getCurrentSavedState` (src/src/App.tsx lines 57-71): a missing or
unparseable stored value yields `INITIAL_STATE`; a parsed one is spread over
the defaults. -/
def getCurrentSavedState : StoredValue → SavedState
  | .absent => INITIAL_STATE
  | .malformed => INITIAL_STATE
  | .obj p => spreadState INITIAL_STATE p

/-- Serialization `JSON.stringify` of a full state writes all five keys. -/
def toPartial (s : SavedState) : PartialState :=
  { z := some s.z, lat := some s.lat, lng := some s.lng,
    style := some s.style, lang := some s.lang }

/-- Function `setSavedState` (src/src/App.tsx lines 91-100): merge the update into the
current state and store the serialized result. -/
def setSavedState (input : PartialState) (store : StoredValue) : StoredValue :=
  .obj (toPartial (spreadState (getCurrentSavedState store) input))

/-- IEEE-754 double value of JS `Math.LN2`, as the exact decimal literal of its
shortest representation. -/
def jsLN2 : ℚ := 0.6931471805599453

/-- IEEE-754 double value of JS `Math.LN10`. -/
def jsLN10 : ℚ := 2.302585092994046

/-- IEEE-754 double value of JS `Math.log(512 / 360 / 0.5)`. -/
def jsLogConst512 : ℚ := 1.0453677741492975

/-- Smallest power-of-ten exponent clearing the denominator; the rationals
serialized by the handlers all have denominators dividing `10^18`. -/
def decExponent (d : Nat) : Nat :=
  (((List.range 19).find? fun k => 10 ^ k % d == 0)).getD 0

def padZeros (k : Nat) (s : String) : String :=
  String.mk (List.replicate (k - s.toList.length) '0') ++ s

/-- JS number-to-string for a rational with finite decimal expansion: sign and
shortest digit string without trailing fractional zeros, as JS prints the
finitely-representable values arising in the handlers; computed from the
reduced numerator and denominator. -/
def ratToString (q : ℚ) : String :=
  let sgn := if q.num < 0 then "-" else ""
  let k := decExponent q.den
  let m := q.num.natAbs * (10 ^ k / q.den)
  if k = 0 then sgn ++ toString m
  else sgn ++ toString (m / 10 ^ k) ++ "." ++ padZeros k (toString (m % 10 ^ k))

/-- The `precision` computed in the moveend handler from the rounded zoom:
`Math.ceil((zoom * Math.LN2 + Math.log(512 / 360 / 0.5)) / Math.LN10)`. -/
def hashPrecision (zoom : ℚ) : ℤ := ⌈(zoom * jsLN2 + jsLogConst512) / jsLN10⌉

/-- Result of the `moveend` handler (src/src/App.tsx lines 122-136): the pieces
of the hash `map` value and the update passed to `setSavedState`. -/
structure MoveendResult where
  zStr : ℤ
  latRounded : ℚ
  lngRounded : ℚ
  prec : ℤ
  zLatLngString : String
  savedInput : PartialState
deriving DecidableEq

/-- Hex digit test used by URLSearchParams percent-decoding. -/
def isHexDigitChar (c : Char) : Bool :=
  (48 ≤ c.toNat && c.toNat ≤ 57) || (65 ≤ c.toNat && c.toNat ≤ 70) ||
    (97 ≤ c.toNat && c.toNat ≤ 102)

def hexVal (c : Char) : Nat :=
  if c.toNat ≤ 57 then c.toNat - 48
  else if c.toNat ≤ 70 then c.toNat - 55
  else c.toNat - 87

/-- Form-urlencoded percent/plus decoding of one component,
at the level of ASCII characters (for the ASCII inputs of interest, byte-level
and character-level decoding agree). An invalid escape leaves the `%` literal
and scanning continues from the next character, as the URL standard does. -/
def decodeChars : List Char → List Char
  | [] => []
  | [c] => if c = '+' then [' '] else [c]
  | [c1, c2] =>
    (if c1 = '+' then ' ' else c1) :: (if c2 = '+' then ' ' else c2) :: []
  | c :: c1 :: c2 :: rest =>
    if c = '+' then ' ' :: decodeChars (c1 :: c2 :: rest)
    else if c = '%' ∧ isHexDigitChar c1 = true ∧ isHexDigitChar c2 = true then
      Char.ofNat (16 * hexVal c1 + hexVal c2) :: decodeChars rest
    else c :: decodeChars (c1 :: c2 :: rest)

/-- The serializer's safe set: ASCII alphanumerics and `*`, `-`, `.`, `_` pass
through URL-encoding unchanged. -/
def isSafeChar (c : Char) : Bool :=
  c.isAlphanum || c == '*' || c == '-' || c == '.' || c == '_'

def hexDigitUpper (n : Nat) : Char :=
  if n < 10 then Char.ofNat (48 + n) else Char.ofNat (55 + n)

/-- UTF-8 bytes of a character (URL-encoding percent-escapes the UTF-8
encoding of non-safe characters). -/
def utf8Bytes (c : Char) : List Nat :=
  let n := c.toNat
  if n < 128 then [n]
  else if n < 2048 then [192 + n / 64, 128 + n % 64]
  else if n < 65536 then [224 + n / 4096, 128 + n / 64 % 64, 128 + n % 64]
  else [240 + n / 262144, 128 + n / 4096 % 64, 128 + n / 64 % 64, 128 + n % 64]

/-- Form-urlencoded serialization of one character: space
becomes `+`, safe characters pass through, everything else is percent-encoded
with uppercase hex digits per UTF-8 byte. -/
def encodeChar (c : Char) : List Char :=
  if c = ' ' then ['+']
  else if isSafeChar c = true then [c]
  else ((utf8Bytes c).map fun b => ['%', hexDigitUpper (b / 16), hexDigitUpper (b % 16)]).flatten

def encodeStr (l : List Char) : List Char := (l.map encodeChar).flatten

/-- Split a `name=value` pair at the first `=` (a pair without `=` yields an
empty value), as the URLSearchParams parser does. -/
def splitFirstEq : List Char → List Char × List Char
  | [] => ([], [])
  | c :: rest =>
    if c = '=' then ([], rest)
    else
      let p := splitFirstEq rest
      (c :: p.1, p.2)

/-- The URLSearchParams parser applied to a fragment string (`parseHash`,
src/src/App.tsx lines 12-16, passes `location.hash` minus the leading `#`):
split on `&`, skip empty segments, split each pair at the first `=`, and
percent/plus-decode names and values. -/
def parseQS (s : List Char) : List (List Char × List Char) :=
  ((splitOnChar '&' s).filter (fun seg => !seg.isEmpty)).map fun seg =>
    (decodeChars (splitFirstEq seg).1, decodeChars (splitFirstEq seg).2)

/-- Join serialized pairs with `&`. -/
def joinAmp : List (List Char) → List Char
  | [] => []
  | [s] => s
  | s :: t :: rest => s ++ '&' :: joinAmp (t :: rest)

/-- Serializer `URLSearchParams.prototype.toString`: each pair is `encode(name) = encode(value)`,
pairs joined by `&`. -/
def toStringQS (ps : List (List Char × List Char)) : List Char :=
  joinAmp (ps.map fun kv => encodeStr kv.1 ++ '=' :: encodeStr kv.2)

/-- The `.replace(/%2F/g, '/')` of `updateHash`: global leftmost replacement of
`%2F` by `/`. -/
def replacePercent2F : List Char → List Char
  | [] => []
  | [c] => [c]
  | [c1, c2] => [c1, c2]
  | c1 :: c2 :: c3 :: rest =>
    if c1 = '%' ∧ c2 = '2' ∧ c3 = 'F' then '/' :: replacePercent2F rest
    else c1 :: replacePercent2F (c2 :: c3 :: rest)

/-- Function `updateHash` (src/src/App.tsx lines 18-20) at fragment-string level:
serialize the params and restore literal slashes. -/
def writeHashFragment (ps : List (List Char × List Char)) : List Char :=
  replacePercent2F (toStringQS ps)

/-- The round trip `updateHash(parseHash())` on a fragment string. -/
def hashRoundTrip (s : List Char) : List Char := writeHashFragment (parseQS s)

/-- Characters that survive the round trip: the serializer's safe set plus the
slash restored by `updateHash`. -/
def goodChar (c : Char) : Bool := isSafeChar c || c == '/'

/-- A well-formed fragment built from a list of key/value pairs. -/
def rawFragment (ps : List (List Char × List Char)) : List Char :=
  joinAmp (ps.map fun kv => kv.1 ++ '=' :: kv.2)

/-- Containment of `pat` in `s` as a contiguous substring. -/
def strContains (s pat : String) : Prop := List.IsInfix pat.toList s.toList

instance (s pat : String) : Decidable (strContains s pat) :=
  inferInstanceAs (Decidable (List.IsInfix pat.toList s.toList))

/-- Geometry of a GeoJSON feature, as far as the handlers inspect it: a point
with `[lng, lat]` coordinates, or anything else. -/
inductive GeomVal
  | point (lng lat : ℚ)
  | other
deriving DecidableEq

/-- A GeoJSON feature: its property bag and geometry. -/
structure Feature where
  properties : List (String × String)
  geometry : GeomVal
deriving DecidableEq

/-- Body of a search API response: `{error: bool, geojson: ...}`, the feature
collection represented by its `features` array. -/
structure ApiResponse where
  error : Bool
  geojson : List Feature
deriving DecidableEq

/-- A `LngLatBounds`: south-west and north-east corners. -/
structure Bounds where
  west : ℚ
  south : ℚ
  east : ℚ
  north : ℚ
deriving DecidableEq

/-- The slice of live map state `handleSearch` mutates: the `search-results`
geojson source (if created), the layer ids present, and the viewport target of
the last `fitBounds`. -/
structure MapState where
  searchResults : Option (List Feature)
  layers : List String
  viewport : Option Bounds
deriving DecidableEq

/-- One entry of the `normalize` result: latitude and longitude, each possibly
null. -/
structure NormCoord where
  lat : Option ℚ
  lng : Option ℚ
deriving DecidableEq

def digitsToNat (l : List Char) : Nat :=
  l.foldl (fun acc c => 10 * acc + (c.toNat - 48)) 0

/-- Parse an optionally signed plain decimal numeral. -/
def parseDecimal (s : List Char) : Option ℚ :=
  let core : List Char → Option ℚ := fun l =>
    match splitOnChar '.' l with
    | [ip] =>
      if ip ≠ [] ∧ ip.all (·.isDigit) then some ((digitsToNat ip : ℚ)) else none
    | [ip, fp] =>
      if ip ≠ [] ∧ ip.all (·.isDigit) ∧ fp ≠ [] ∧ fp.all (·.isDigit) then
        some ((digitsToNat ip : ℚ) + (digitsToNat fp : ℚ) / 10 ^ fp.length)
      else none
    | _ => none
  match s with
  | '-' :: rest => (core rest).map (fun q => -q)
  | _ => core s

/-- Modelled from the spec: the external `@geolonia/normalize-any-latlng`
parser is a package dependency whose source is not part of this repository.
Per the spec the query is used as a coordinate "if it parses as one or more
literal coordinate expressions"; this model accepts the plain decimal
`lat,lng` form the claims exercise and yields no coordinate otherwise. -/
def normalize (q : String) : List NormCoord :=
  match splitOnChar ',' q.toList with
  | [a, b] =>
    match parseDecimal a, parseDecimal b with
    | some la, some lo => [{ lat := some la, lng := some lo }]
    | _, _ => []
  | _ => []

/-- The coordinate label `${lat_prefix}${...}°, ${lng_prefix}${...}°` built in
`handleSearch` (src/src/App.tsx lines 224-226). -/
def coordLabel (lat lng : ℚ) : String :=
  let latPref := if 0 ≤ lat then "北緯" else "南緯"
  let lngPref := if 0 ≤ lng then "東経" else "西経"
  latPref ++ ratToString ((jsRound (|lat| * 10000) : ℚ) / 10000) ++ "°, " ++
    lngPref ++ ratToString ((jsRound (|lng| * 10000) : ℚ) / 10000) ++ "°"

/-- The synthetic point feature built for one parsed coordinate
(src/src/App.tsx lines 227-234): `properties: {index}`, point `[lng, lat]`. -/
def coordFeature (lat lng : ℚ) : Feature :=
  { properties := [("index", coordLabel lat lng)], geometry := .point lng lat }

/-- Method `LngLatBounds.extend`. -/
def extendBounds (b : Bounds) (lng lat : ℚ) : Bounds :=
  { west := min b.west lng, south := min b.south lat,
    east := max b.east lng, north := max b.north lat }

/-- The bounds loop of `handleSearch` (src/src/App.tsx lines 327-336): fold the
point features into a bounding box, skipping non-point geometries. -/
def boundsOfFeatures (fs : List Feature) : Option Bounds :=
  fs.foldl
    (fun acc f =>
      match f.geometry with
      | .point lng lat =>
        match acc with
        | none => some { west := lng, south := lat, east := lng, north := lat }
        | some b => some (extendBounds b lng lat)
      | .other => acc)
    none

/-- The three `search-results-*` layers are added only when the circle layer is
absent (src/src/App.tsx lines 269-325). -/
def ensureLayers (ls : List String) : List String :=
  if "search-results-circle" ∈ ls then ls
  else ls ++ ["search-results-circle", "search-results-symbol", "search-results-label"]

/-- src/src/App.tsx lines 257-339: set (or create) the `search-results` source
with the data, ensure the layers exist, and fit the viewport to the bounds of
the point features when there are any. -/
def applySearchData (st : MapState) (data : List Feature) : MapState :=
  let st1 : MapState :=
    { st with searchResults := some data, layers := ensureLayers st.layers }
  match boundsOfFeatures data with
  | some b => { st1 with viewport := some b }
  | none => st1

/-- Observable effect of one `handleSearch` invocation: whether the search
endpoint was queried, whether an error was logged, and the new map state. -/
structure SearchEffect where
  requested : Bool
  logged : Bool
  state : MapState
deriving DecidableEq

/-- Function `handleSearch` (src/src/App.tsx lines 205-340), as a function of the
submitted query, the response the search endpoint would return if called, and
the current map state. -/
def handleSearch (query : String) (resp : ApiResponse) (st : MapState) : SearchEffect :=
  let queriesInCoord := (normalize query).filterMap fun c =>
    match c.lat, c.lng with
    | some la, some lo => some (la, lo)
    | _, _ => none
  if 0 < queriesInCoord.length then
    { requested := false, logged := false,
      state := applySearchData st (queriesInCoord.map fun p => coordFeature p.1 p.2) }
  else if resp.error = true then
    { requested := true, logged := true, state := st }
  else
    { requested := true, logged := false, state := applySearchData st resp.geojson }

/-- The fixed tag-key translation dictionary of the feature-info handler
(src/unnamed/part_001 lines 40-70). -/
def tagTranslations : List (String × String) :=
  [("addr:block_number", "街区番号"), ("addr:city", "市区町村"),
   ("addr:housenumber", "番地"), ("addr:neighbourhood", "丁目"),
   ("addr:postcode", "郵便番号"), ("addr:province", "都道府県"),
   ("addr:quarter", "地区"), ("brand", "ブランド"), ("brand:en", "ブランド(英語)"),
   ("brand:ja", "ブランド(日本語)"), ("brand:wikidata", "Wikidata ID"),
   ("brand:wikipedia", "Wikipedia"), ("name", "名称"), ("name:en", "名称(英語)"),
   ("name:ja", "名称(日本語)"), ("opening_hours", "営業時間"), ("shop", "店舗種別")]

/-- JS property lookup in a tag object (first binding wins). -/
def lookupTag (tags : List (String × String)) (k : String) : Option String :=
  (tags.find? fun kv => kv.1 == k).map (·.2)

/-- JS string truthiness: the empty string is as falsy as an absent property. -/
def truthy : Option String → Option String
  | some "" => none
  | o => o

/-- Display name resolution of the feature-info handler:
`tags.name || tags['name:ja'] || tags['name:en'] || tags['name:zh']`. -/
def jsName (tags : List (String × String)) : Option String :=
  truthy (lookupTag tags "name") <|> truthy (lookupTag tags "name:ja") <|>
    truthy (lookupTag tags "name:en") <|> truthy (lookupTag tags "name:zh")

/-- One entry of the popup body:
`<div><strong>${translatedKey}:</strong> ${value}</div>` with the key mapped
through the translation dictionary when known. -/
def popupEntry (kv : String × String) : String :=
  "<div><strong>" ++ ((lookupTag tagTranslations kv.1).getD kv.1) ++ ":</strong> " ++
    kv.2 ++ "</div>"

/-- All tag entries of the popup body, rendered and joined with no separator. -/
def popupContent (tags : List (String × String)) : String :=
  String.join (tags.map popupEntry)

/-- Fallback body when the tag object is empty:
the template's `${popupContent || '...'}`. -/
def contentOrFallback (tags : List (String × String)) : String :=
  if popupContent tags = "" then "この地点には情報がありません" else popupContent tags

/-- The conditional Wikidata anchor block (src/unnamed/part_001 lines 120-129);
HTML-insignificant template whitespace is elided here and below. -/
def wikidataBlock : Option String → String
  | some wd =>
    if wd = "" then ""
    else "<div><a href=\"https://www.wikidata.org/wiki/" ++ wd ++
      "\" target=\"_blank\" style=\"color: #1a73e8; text-decoration: none;\">Wikidataを見に行く</a></div>"
  | none => ""

/-- The conditional Wikipedia anchor block (part_001 lines 130-139). -/
def wikipediaBlock : Option String → String
  | some n =>
    if n = "" then ""
    else "<div><a href=\"https://ja.wikipedia.org/wiki/" ++ n ++
      "\" target=\"_blank\" style=\"color: #1a73e8; text-decoration: none;\">Wikipediaを見に行く</a></div>"
  | none => ""

/-- The conditional source-reference anchor block (part_001 lines 140-146). -/
def sourceRefBlock : Option String → String
  | some r =>
    if r = "" then ""
    else "<div><a href=\"" ++ r ++ "\" target=\"_blank\">参照先を見に行く</a></div>"
  | none => ""

/-- The conditional website anchor block (part_001 lines 147-153). -/
def websiteBlock : Option String → String
  | some w =>
    if w = "" then ""
    else "<div><a href=\"" ++ w ++ "\" target=\"_blank\">ウェブサイトを見に行く</a></div>"
  | none => ""

/-- The popup HTML assembled by the feature-info click handler from the first
element's tags (src/unnamed/part_001 lines 93-155). -/
def mkPopupHTML (tags : List (String × String)) : String :=
  "<div><h3>" ++ ((jsName tags).getD "No Title") ++ "</h3><div>" ++
    contentOrFallback tags ++ "</div>" ++
    wikidataBlock (lookupTag tags "brand:wikidata") ++
    wikipediaBlock (jsName tags) ++
    sourceRefBlock (lookupTag tags "source_ref") ++
    websiteBlock (lookupTag tags "website") ++ "</div>"

/-- The same template with the Wikidata slot empty, the comparator for the
amended claim: no Wikidata URL occurs anywhere in this definition. -/
def mkPopupNoWikidata (tags : List (String × String)) : String :=
  "<div><h3>" ++ ((jsName tags).getD "No Title") ++ "</h3><div>" ++
    contentOrFallback tags ++ "</div>" ++
    "" ++
    wikipediaBlock (jsName tags) ++
    sourceRefBlock (lookupTag tags "source_ref") ++
    websiteBlock (lookupTag tags "website") ++ "</div>"

/-- The `moveend` handler (src/src/App.tsx lines 122-136). -/
def onMoveend (rawZoom lat lng : ℚ) : MoveendResult :=
  let zoom : ℚ := (jsRound (rawZoom * 100) : ℚ) / 100
  let prec : ℤ := hashPrecision zoom
  let m : ℚ := 10 ^ prec
  let lng2 : ℚ := (jsRound (lng * m) : ℚ) / m
  let lat2 : ℚ := (jsRound (lat * m) : ℚ) / m
  let zc : ℤ := ⌈zoom⌉
  { zStr := zc, latRounded := lat2, lngRounded := lng2, prec := prec,
    zLatLngString := toString zc ++ "/" ++ ratToString lat2 ++ "/" ++ ratToString lng2,
    savedInput := { z := some (.num rawZoom), lat := some (.num lat2), lng := some (.num lng2) } }

end MapsGeolonia

namespace MapsGeolonia

theorem splitOnChar_ne_nil (sep : Char) (l : List Char) : splitOnChar sep l ≠ [] := by
  cases l with
  | nil => simp [splitOnChar]
  | cons c rest =>
    by_cases h : c = sep
    · simp [splitOnChar, h]
    · simp only [splitOnChar, if_neg h]
      cases splitOnChar sep rest with
      | nil => simp
      | cons seg segs => simp

theorem splitOnChar_head (sep : Char) (l : List Char) :
    (splitOnChar sep l).headD [] = l.takeWhile (· ≠ sep) := by
  induction l with
  | nil => simp [splitOnChar]
  | cons c rest ih =>
    by_cases h : c = sep
    · simp [splitOnChar, h, List.takeWhile]
    · simp only [splitOnChar, if_neg h]
      rcases hs : splitOnChar sep rest with _ | ⟨seg, segs⟩
      · exact absurd hs (splitOnChar_ne_nil sep rest)
      · simp only [List.headD_cons, List.takeWhile]
        rw [hs] at ih
        simp only [List.headD_cons] at ih
        simp [h, ih]

/-- The code's `split(';')[0]` agrees with the spec's "portion before the first
`;`". -/
theorem splitSemiHead_eq_takeBeforeSemi (s : String) :
    splitSemiHead s = takeBeforeSemi s := by
  unfold splitSemiHead takeBeforeSemi
  rw [splitOnChar_head]

theorem strAppend_assoc (a b c : String) : a ++ b ++ c = a ++ (b ++ c) := by
  apply String.ext
  simp [String.data_append, List.append_assoc]

/-- C1: `styleIdToUrl` applies, in priority order: (1) an absolute (`https://`)
URL passes through unchanged; (2) a supplied language other than the sentinel
`auto` yields the CDN URL `{base}/style/{styleId}/{language}.json`; (3)
otherwise the identifier is truncated at the first `;`. In particular ids
without a scheme with language `en` resolve to `{base}/style/{id}/en.json`, and
language `auto` or absent yields the truncation. -/
theorem style_resolver_rules :
    (∀ s lang, isHttpsUrl s = true → styleIdToUrl s lang = s) ∧
    (∀ s l, isHttpsUrl s = false → l ≠ "" → l ≠ "auto" →
      styleIdToUrl s (some l) =
        "https://cdn.geolonia.com/style/" ++ s ++ "/" ++ l ++ ".json") ∧
    (∀ s, isHttpsUrl s = false →
      styleIdToUrl s (some "en") = "https://cdn.geolonia.com/style/" ++ s ++ "/en.json") ∧
    (∀ s, isHttpsUrl s = false →
      styleIdToUrl s (some "auto") = takeBeforeSemi s ∧
      styleIdToUrl s none = takeBeforeSemi s) := by
  refine ⟨?_, ?_, ?_, ?_⟩
  · intro s lang h
    simp [styleIdToUrl, h]
  · intro s l h hne hna
    simp [styleIdToUrl, h, hne, hna]
  · intro s h
    have h2 : styleIdToUrl s (some "en") =
        "https://cdn.geolonia.com/style/" ++ s ++ "/" ++ "en" ++ ".json" := by
      simp [styleIdToUrl, h]
    rw [h2, strAppend_assoc ("https://cdn.geolonia.com/style/" ++ s) "/" "en",
      strAppend_assoc ("https://cdn.geolonia.com/style/" ++ s) ("/" ++ "en") ".json"]
    rfl
  · intro s h
    constructor
    · simp [styleIdToUrl, h, splitSemiHead_eq_takeBeforeSemi]
    · simp [styleIdToUrl, h, splitSemiHead_eq_takeBeforeSemi]

theorem style_resolver_rules_spec_witness :
    styleIdToUrl "https://example.com/style.json" (some "en") = "https://example.com/style.json" ∧
    styleIdToUrl "geolonia/basic" (some "en") =
      "https://cdn.geolonia.com/style/geolonia/basic/en.json" ∧
    styleIdToUrl "geolonia/basic;ja" (some "auto") = "geolonia/basic" ∧
    styleIdToUrl "geolonia/basic;ja" none = "geolonia/basic" := by
  refine ⟨style_resolver_rules.1 _ (some "en") (by decide), ?_, ?_, ?_⟩
  · exact style_resolver_rules.2.2.1 "geolonia/basic" (by decide)
  · exact (style_resolver_rules.2.2.2 "geolonia/basic;ja" (by decide)).1
  · exact (style_resolver_rules.2.2.2 "geolonia/basic;ja" (by decide)).2

/-- C9: for a non-`https://` style identifier containing `;` (the legacy
`id;lang` encoding), a supplied language other than `auto` builds the CDN URL
from the full identifier, semicolon and suffix included; truncation at the
first `;` happens only in the `auto`/absent-language branch. -/
theorem style_semicolon_full_id (s l : String)
    (hs : isHttpsUrl s = false) (_hsemi : ';' ∈ s.toList)
    (hne : l ≠ "") (hna : l ≠ "auto") :
    styleIdToUrl s (some l) =
      "https://cdn.geolonia.com/style/" ++ s ++ "/" ++ l ++ ".json" ∧
    styleIdToUrl s (some "auto") = takeBeforeSemi s ∧
    styleIdToUrl s none = takeBeforeSemi s := by
  refine ⟨?_, ?_, ?_⟩
  · simp [styleIdToUrl, hs, hne, hna]
  · simp [styleIdToUrl, hs, splitSemiHead_eq_takeBeforeSemi]
  · simp [styleIdToUrl, hs, splitSemiHead_eq_takeBeforeSemi]

theorem style_semicolon_full_id_witness :
    styleIdToUrl "geolonia/basic;ja" (some "en") =
      "https://cdn.geolonia.com/style/geolonia/basic;ja/en.json" ∧
    styleIdToUrl "geolonia/basic;ja" (some "auto") = "geolonia/basic" ∧
    styleIdToUrl "geolonia/basic;ja" none = "geolonia/basic" :=
  style_semicolon_full_id "geolonia/basic;ja" "en" (by decide) (by decide)
    (by decide) (by decide)

/-- C6: from empty persisted storage, `setSavedState({style: "x"})` followed by
`getCurrentSavedState()` yields style `"x"` with `z`, `lat`, `lng`, `lang` at
their fixed defaults: updating one field leaves every other field unchanged. -/
theorem saved_state_update_frame :
    getCurrentSavedState (setSavedState { style := some (.str "x") } .absent) =
      { INITIAL_STATE with style := .str "x" } := rfl

/-- C7 counterexample: a parseable stored object carrying an invalid
(wrong-typed) `z` field is not replaced by the default `z = 6`; the unvalidated
value is returned as-is. -/
theorem saved_state_invalid_field_kept :
    (getCurrentSavedState (.obj { z := some (.str "not-a-number") })).z =
      .str "not-a-number" ∧
    (getCurrentSavedState (.obj { z := some (.str "not-a-number") })).z ≠
      INITIAL_STATE.z := by
  decide

/-- C7 (amended): an absent or unparseable stored value yields the full fixed
defaults (`z=6, lat=35.645, lng=136.944, style="geolonia/basic", lang="auto"`),
and a field missing from a parsed object falls back to its default; a field
that is present is taken over verbatim, without validation. -/
theorem saved_state_defaults (p : PartialState) :
    getCurrentSavedState .absent = INITIAL_STATE ∧
    getCurrentSavedState .malformed = INITIAL_STATE ∧
    (p.z = none → (getCurrentSavedState (.obj p)).z = .num 6) ∧
    (p.lat = none → (getCurrentSavedState (.obj p)).lat = .num 35.645) ∧
    (p.lng = none → (getCurrentSavedState (.obj p)).lng = .num 136.944) ∧
    (p.style = none → (getCurrentSavedState (.obj p)).style = .str "geolonia/basic") ∧
    (p.lang = none → (getCurrentSavedState (.obj p)).lang = .str "auto") ∧
    (∀ v, p.z = some v → (getCurrentSavedState (.obj p)).z = v) := by
  refine ⟨rfl, rfl, ?_, ?_, ?_, ?_, ?_, ?_⟩
  · intro h; simp [getCurrentSavedState, spreadState, INITIAL_STATE, h]
  · intro h; simp [getCurrentSavedState, spreadState, INITIAL_STATE, h]
  · intro h; simp [getCurrentSavedState, spreadState, INITIAL_STATE, h]
  · intro h; simp [getCurrentSavedState, spreadState, INITIAL_STATE, h]
  · intro h; simp [getCurrentSavedState, spreadState, INITIAL_STATE, h]
  · intro v h; simp [getCurrentSavedState, spreadState, h]

theorem saved_state_defaults_witness :
    getCurrentSavedState .absent = INITIAL_STATE ∧
    (getCurrentSavedState (.obj {})).z = .num 6 ∧
    (getCurrentSavedState (.obj { z := some (.num 9) })).z = .num 9 :=
  ⟨(saved_state_defaults {}).1, (saved_state_defaults {}).2.2.1 rfl,
    (saved_state_defaults { z := some (.num 9) }).2.2.2.2.2.2.2 _ rfl⟩

/-- C2: for every zoom reachable on a moveend event (maplibre zoom levels never
go below -2), the number of decimal digits used when rounding the serialized
lat/lng equals `ceil((round(z,2)·ln2 + ln(512/360/0.5)) / ln10)`, and this
count is never negative, so clamping it at zero is the identity; the rounded
coordinates are integer multiples of `10^(-precision)`. -/
theorem position_precision_digits (rawZoom lat lng : ℚ) (h : -2 ≤ rawZoom) :
    (onMoveend rawZoom lat lng).prec =
      ⌈(((jsRound (rawZoom * 100) : ℚ) / 100) * jsLN2 + jsLogConst512) / jsLN10⌉ ∧
    0 ≤ (onMoveend rawZoom lat lng).prec ∧
    max (onMoveend rawZoom lat lng).prec 0 = (onMoveend rawZoom lat lng).prec ∧
    (∃ k : ℤ, (onMoveend rawZoom lat lng).latRounded =
      (k : ℚ) / 10 ^ (onMoveend rawZoom lat lng).prec) ∧
    (∃ k : ℤ, (onMoveend rawZoom lat lng).lngRounded =
      (k : ℚ) / 10 ^ (onMoveend rawZoom lat lng).prec) := by
  have hz100 : (-200 : ℤ) ≤ jsRound (rawZoom * 100) := by
    unfold jsRound
    rw [Int.le_floor]
    push_cast
    linarith
  have hzoom : (-2 : ℚ) ≤ (jsRound (rawZoom * 100) : ℚ) / 100 := by
    have h2 : ((-200 : ℤ) : ℚ) ≤ (jsRound (rawZoom * 100) : ℚ) := by
      exact_mod_cast hz100
    push_cast at h2
    linarith
  have hp : 0 ≤ hashPrecision ((jsRound (rawZoom * 100) : ℚ) / 100) := by
    set zoom : ℚ := (jsRound (rawZoom * 100) : ℚ) / 100 with hzdef
    have h1 : (-2 : ℚ) * jsLN2 ≤ zoom * jsLN2 := by
      apply mul_le_mul_of_nonneg_right hzoom
      norm_num [jsLN2]
    have hnum : (-1 : ℚ) * jsLN10 < zoom * jsLN2 + jsLogConst512 := by
      rw [show ((-2 : ℚ) * jsLN2) = -1.3862943611198906 by norm_num [jsLN2]] at h1
      norm_num [jsLN10, jsLogConst512]
      linarith
    have hfrac : ((-1 : ℤ) : ℚ) < (zoom * jsLN2 + jsLogConst512) / jsLN10 := by
      rw [lt_div_iff₀ (by norm_num [jsLN10] : (0 : ℚ) < jsLN10)]
      push_cast
      linarith
    have := Int.lt_ceil.mpr hfrac
    unfold hashPrecision
    omega
  refine ⟨rfl, hp, max_eq_left hp, ?_, ?_⟩
  · exact ⟨jsRound (lat * 10 ^ hashPrecision ((jsRound (rawZoom * 100) : ℚ) / 100)), rfl⟩
  · exact ⟨jsRound (lng * 10 ^ hashPrecision ((jsRound (rawZoom * 100) : ℚ) / 100)), rfl⟩

theorem position_precision_digits_witness :
    (-2 : ℚ) ≤ 16 ∧ 0 ≤ (onMoveend 16 35.68 139.76).prec ∧
    max (onMoveend 16 35.68 139.76).prec 0 = (onMoveend 16 35.68 139.76).prec :=
  ⟨by norm_num, (position_precision_digits 16 35.68 139.76 (by norm_num)).2.1,
    (position_precision_digits 16 35.68 139.76 (by norm_num)).2.2.1⟩

theorem goodChar_ne (c : Char) (h : goodChar c = true) :
    c ≠ '&' ∧ c ≠ '=' ∧ c ≠ '+' ∧ c ≠ '%' ∧ c ≠ ' ' := by
  refine ⟨?_, ?_, ?_, ?_, ?_⟩ <;> rintro rfl <;> exact absurd h (by decide)

theorem decodeChars_cons (c : Char) (l : List Char) (h1 : c ≠ '+') (h2 : c ≠ '%') :
    decodeChars (c :: l) = c :: decodeChars l := by
  match l with
  | [] => simp [decodeChars, h1]
  | [d] => by_cases hd : d = '+' <;> simp [decodeChars, h1, hd]
  | d1 :: d2 :: t => simp [decodeChars, h1, h2]

theorem decodeChars_id (l : List Char) (h : ∀ c ∈ l, goodChar c = true) :
    decodeChars l = l := by
  induction l with
  | nil => rfl
  | cons c rest ih =>
    have hc := goodChar_ne c (h c (List.mem_cons_self c rest))
    rw [decodeChars_cons c rest hc.2.2.1 hc.2.2.2.1,
      ih fun d hd => h d (List.mem_cons_of_mem c hd)]

theorem splitOnChar_no_sep (sep : Char) (l : List Char) (h : sep ∉ l) :
    splitOnChar sep l = [l] := by
  induction l with
  | nil => rfl
  | cons c rest ih =>
    have hc : c ≠ sep := fun hc => h (hc ▸ List.mem_cons_self c rest)
    have hr : sep ∉ rest := fun hr => h (List.mem_cons_of_mem c hr)
    simp [splitOnChar, hc, ih hr]

theorem splitOnChar_append (sep : Char) (p t : List Char) (h : sep ∉ p) :
    splitOnChar sep (p ++ sep :: t) = p :: splitOnChar sep t := by
  induction p with
  | nil => simp [splitOnChar]
  | cons c p' ih =>
    have hc : c ≠ sep := fun hc => h (hc ▸ List.mem_cons_self c p')
    have hp : sep ∉ p' := fun hp => h (List.mem_cons_of_mem c hp)
    simp [splitOnChar, hc, ih hp]

theorem splitFirstEq_append (k v : List Char) (h : '=' ∉ k) :
    splitFirstEq (k ++ '=' :: v) = (k, v) := by
  induction k with
  | nil => simp [splitFirstEq]
  | cons c k' ih =>
    have hc : c ≠ '=' := fun hc => h (hc ▸ List.mem_cons_self c k')
    have hk : '=' ∉ k' := fun hk => h (List.mem_cons_of_mem c hk)
    simp [splitFirstEq, hc, ih hk]

theorem encodeChar_safe (c : Char) (h : isSafeChar c = true) : encodeChar c = [c] := by
  have hs : c ≠ ' ' := by rintro rfl; exact absurd h (by decide)
  simp [encodeChar, hs, h]

theorem encodeChar_slash : encodeChar '/' = ['%', '2', 'F'] := by decide

theorem replacePercent2F_cons (c : Char) (l : List Char) (h : c ≠ '%') :
    replacePercent2F (c :: l) = c :: replacePercent2F l := by
  match l with
  | [] => rfl
  | [d] => rfl
  | d1 :: d2 :: t =>
    have hcond : ¬(c = '%' ∧ d1 = '2' ∧ d2 = 'F') := fun hh => h hh.1
    simp [replacePercent2F, hcond]

theorem replacePercent2F_slash (l : List Char) :
    replacePercent2F ('%' :: '2' :: 'F' :: l) = '/' :: replacePercent2F l := by
  simp [replacePercent2F]

theorem replacePercent2F_encode (k t : List Char) (hk : ∀ c ∈ k, goodChar c = true) :
    replacePercent2F (encodeStr k ++ t) = k ++ replacePercent2F t := by
  induction k with
  | nil => simp [encodeStr]
  | cons c k' ih =>
    have hc := hk c (List.mem_cons_self c k')
    have hk' : ∀ d ∈ k', goodChar d = true := fun d hd => hk d (List.mem_cons_of_mem c hd)
    have hcons : encodeStr (c :: k') = encodeChar c ++ encodeStr k' := by simp [encodeStr]
    by_cases hsafe : isSafeChar c = true
    · have hne : c ≠ '%' := by rintro rfl; exact absurd hsafe (by decide)
      rw [hcons, encodeChar_safe c hsafe]
      simp only [List.cons_append, List.nil_append, List.append_assoc]
      rw [replacePercent2F_cons c _ hne, ih hk']
    · have hslash : c = '/' := by
        have hgc := hc
        simp [goodChar, hsafe] at hgc
        exact hgc
      subst hslash
      rw [hcons, encodeChar_slash]
      simp only [List.cons_append, List.nil_append, List.append_assoc]
      rw [replacePercent2F_slash, ih hk']

theorem replacePercent2F_encode_nil (k : List Char) (hk : ∀ c ∈ k, goodChar c = true) :
    replacePercent2F (encodeStr k) = k := by
  have h := replacePercent2F_encode k [] hk
  simpa [replacePercent2F] using h

theorem writeHash_rawFragment (ps : List (List Char × List Char))
    (h : ∀ kv ∈ ps, (∀ c ∈ kv.1, goodChar c = true) ∧ ∀ c ∈ kv.2, goodChar c = true) :
    writeHashFragment ps = rawFragment ps := by
  induction ps with
  | nil => rfl
  | cons kv rest ih =>
    obtain ⟨h1, h2⟩ := h kv (List.mem_cons_self kv rest)
    have hrest : ∀ x ∈ rest, (∀ c ∈ x.1, goodChar c = true) ∧ ∀ c ∈ x.2, goodChar c = true :=
      fun x hx => h x (List.mem_cons_of_mem kv hx)
    cases rest with
    | nil =>
      show replacePercent2F (encodeStr kv.1 ++ '=' :: encodeStr kv.2) = kv.1 ++ '=' :: kv.2
      rw [replacePercent2F_encode kv.1 _ h1, replacePercent2F_cons '=' _ (by decide),
        replacePercent2F_encode_nil kv.2 h2]
    | cons kv2 rest2 =>
      have hw : writeHashFragment (kv :: kv2 :: rest2) =
          replacePercent2F (encodeStr kv.1 ++ '=' ::
            (encodeStr kv.2 ++ '&' :: toStringQS (kv2 :: rest2))) := by
        show replacePercent2F ((encodeStr kv.1 ++ '=' :: encodeStr kv.2) ++
          '&' :: toStringQS (kv2 :: rest2)) = _
        simp [List.append_assoc]
      rw [hw, replacePercent2F_encode kv.1 _ h1, replacePercent2F_cons '=' _ (by decide),
        replacePercent2F_encode kv.2 _ h2, replacePercent2F_cons '&' _ (by decide)]
      have htail : replacePercent2F (toStringQS (kv2 :: rest2)) = rawFragment (kv2 :: rest2) :=
        ih hrest
      rw [htail]
      show kv.1 ++ '=' :: (kv.2 ++ '&' :: rawFragment (kv2 :: rest2)) =
        (kv.1 ++ '=' :: kv.2) ++ '&' :: rawFragment (kv2 :: rest2)
      simp [List.append_assoc]

theorem parseQS_rawFragment (ps : List (List Char × List Char))
    (h : ∀ kv ∈ ps, (∀ c ∈ kv.1, goodChar c = true) ∧ ∀ c ∈ kv.2, goodChar c = true) :
    parseQS (rawFragment ps) = ps := by
  induction ps with
  | nil => rfl
  | cons kv rest ih =>
    obtain ⟨h1, h2⟩ := h kv (List.mem_cons_self kv rest)
    have hrest : ∀ x ∈ rest, (∀ c ∈ x.1, goodChar c = true) ∧ ∀ c ∈ x.2, goodChar c = true :=
      fun x hx => h x (List.mem_cons_of_mem kv hx)
    have hamp : '&' ∉ (kv.1 ++ '=' :: kv.2) := by
      intro hm
      rcases List.mem_append.mp hm with hm | hm
      · exact (goodChar_ne _ (h1 _ hm)).1 rfl
      · rcases List.mem_cons.mp hm with hm | hm
        · exact absurd hm (by decide)
        · exact (goodChar_ne _ (h2 _ hm)).1 rfl
    have heq1 : '=' ∉ kv.1 := fun hm => (goodChar_ne _ (h1 _ hm)).2.1 rfl
    have hpair : (decodeChars (splitFirstEq (kv.1 ++ '=' :: kv.2)).1,
        decodeChars (splitFirstEq (kv.1 ++ '=' :: kv.2)).2) = kv := by
      rw [splitFirstEq_append _ _ heq1]
      simp only
      rw [decodeChars_id _ h1, decodeChars_id _ h2]
    have hne : (kv.1 ++ '=' :: kv.2) ≠ [] := by simp
    have hbe : (kv.1 ++ '=' :: kv.2).isEmpty = false := by
      cases hl : kv.1 with
      | nil => rfl
      | cons a t => rfl
    cases rest with
    | nil =>
      show parseQS (kv.1 ++ '=' :: kv.2) = [kv]
      unfold parseQS
      rw [splitOnChar_no_sep _ _ hamp]
      simp only [List.filter, hbe, Bool.not_false, List.map, List.filter_nil]
      rw [hpair]
    | cons kv2 rest2 =>
      have hraw : rawFragment (kv :: kv2 :: rest2) =
          (kv.1 ++ '=' :: kv.2) ++ '&' :: rawFragment (kv2 :: rest2) := rfl
      rw [hraw]
      unfold parseQS
      rw [splitOnChar_append _ _ _ hamp]
      simp only [List.filter, hbe, Bool.not_false, List.map]
      rw [hpair]
      have htail := ih hrest
      unfold parseQS at htail
      rw [htail]

theorem applySearchData_searchResults (st : MapState) (data : List Feature) :
    (applySearchData st data).searchResults = some data := by
  unfold applySearchData
  cases h : boundsOfFeatures data <;> simp [h]

/-- C4: when the query is not a coordinate and the API response carries
`error: true`, `handleSearch` logs the response and returns without mutating
map state: the `search-results` source is neither created nor updated, no
layer is added, and the viewport is unchanged. -/
theorem search_error_aborts (query : String) (resp : ApiResponse) (st : MapState)
    (hq : normalize query = []) (he : resp.error = true) :
    (handleSearch query resp st).state = st ∧
    (handleSearch query resp st).state.searchResults = st.searchResults ∧
    (handleSearch query resp st).state.layers = st.layers ∧
    (handleSearch query resp st).state.viewport = st.viewport ∧
    (handleSearch query resp st).logged = true := by
  have hmain : handleSearch query resp st =
      { requested := true, logged := true, state := st } := by
    unfold handleSearch
    rw [hq]
    simp [he]
  rw [hmain]
  exact ⟨rfl, rfl, rfl, rfl, rfl⟩

theorem search_error_aborts_witness :
    (handleSearch "tokyo" ⟨true, []⟩ ⟨none, [], none⟩).state = ⟨none, [], none⟩ ∧
    (handleSearch "tokyo" ⟨true, []⟩ ⟨none, [], none⟩).state.searchResults = none ∧
    (handleSearch "tokyo" ⟨true, []⟩ ⟨none, [], none⟩).state.layers = [] ∧
    (handleSearch "tokyo" ⟨true, []⟩ ⟨none, [], none⟩).state.viewport = none ∧
    (handleSearch "tokyo" ⟨true, []⟩ ⟨none, [], none⟩).logged = true :=
  search_error_aborts "tokyo" ⟨true, []⟩ ⟨none, [], none⟩ rfl rfl

/-- C5: submitting the literal coordinate query `"35.6,139.7"` produces exactly
one synthetic point feature with geometry coordinates `[139.7, 35.6]` whose
`index` label contains both `"北緯35.6°"` and `"東経139.7°"`, and no request is
made to the search endpoint (the response argument is never consulted). -/
theorem coord_search_synthetic (resp : ApiResponse) (st : MapState) :
    (handleSearch "35.6,139.7" resp st).requested = false ∧
    (handleSearch "35.6,139.7" resp st).state.searchResults =
      some [{ properties := [("index", "北緯35.6°, 東経139.7°")],
              geometry := .point 139.7 35.6 }] ∧
    strContains "北緯35.6°, 東経139.7°" "北緯35.6°" ∧
    strContains "北緯35.6°, 東経139.7°" "東経139.7°" := by
  have hn : normalize "35.6,139.7" =
      [{ lat := some ((digitsToNat ['3', '5'] : ℚ) + (digitsToNat ['6'] : ℚ) / 10 ^ 1),
         lng := some ((digitsToNat ['1', '3', '9'] : ℚ) + (digitsToNat ['7'] : ℚ) / 10 ^ 1) }] :=
    rfl
  have hla : ((digitsToNat ['3', '5'] : ℚ) + (digitsToNat ['6'] : ℚ) / 10 ^ 1) = 35.6 := by
    have h1 : digitsToNat ['3', '5'] = 35 := by decide
    have h2 : digitsToNat ['6'] = 6 := by decide
    rw [h1, h2]
    norm_num
  have hlo : ((digitsToNat ['1', '3', '9'] : ℚ) + (digitsToNat ['7'] : ℚ) / 10 ^ 1) = 139.7 := by
    have h1 : digitsToNat ['1', '3', '9'] = 139 := by decide
    have h2 : digitsToNat ['7'] = 7 := by decide
    rw [h1, h2]
    norm_num
  rw [hla, hlo] at hn
  have hh : handleSearch "35.6,139.7" resp st =
      { requested := false, logged := false,
        state := applySearchData st [coordFeature 35.6 139.7] } := by
    unfold handleSearch
    rw [hn]
    simp [List.filterMap]
  have hlabel : coordLabel (35.6 : ℚ) (139.7 : ℚ) = "北緯35.6°, 東経139.7°" := by
    unfold coordLabel
    have hpos1 : (0 : ℚ) ≤ 35.6 := by norm_num
    have hpos2 : (0 : ℚ) ≤ 139.7 := by norm_num
    rw [if_pos hpos1, if_pos hpos2, abs_of_nonneg hpos1, abs_of_nonneg hpos2]
    have hr1 : jsRound ((35.6 : ℚ) * 10000) = 356000 := by
      unfold jsRound
      norm_num
    have hr2 : jsRound ((139.7 : ℚ) * 10000) = 1397000 := by
      unfold jsRound
      norm_num
    rw [hr1, hr2]
    have hv1 : ((356000 : ℤ) : ℚ) / 10000 = Rat.mk' 178 5 (by norm_num) (by norm_num) := by
      rw [Rat.mk'_eq_divInt, Rat.divInt_eq_div]
      push_cast
      norm_num
    have hv2 : ((1397000 : ℤ) : ℚ) / 10000 = Rat.mk' 1397 10 (by norm_num) (by norm_num) := by
      rw [Rat.mk'_eq_divInt, Rat.divInt_eq_div]
      push_cast
      norm_num
    rw [hv1, hv2]
    have hs1 : ratToString (Rat.mk' 178 5 (by norm_num) (by norm_num)) = "35.6" := by decide
    have hs2 : ratToString (Rat.mk' 1397 10 (by norm_num) (by norm_num)) = "139.7" := by decide
    rw [hs1, hs2]
    rfl
  refine ⟨?_, ?_, ?_, ?_⟩
  · rw [hh]
  · rw [hh]
    show (applySearchData st [coordFeature 35.6 139.7]).searchResults = _
    rw [applySearchData_searchResults]
    unfold coordFeature
    rw [hlabel]
  · decide
  · decide

theorem strContains_append_left (a s p : String) (h : strContains s p) :
    strContains (a ++ s) p := by
  obtain ⟨x, y, hxy⟩ := h
  exact ⟨a.toList ++ x, y, by
    show a.toList ++ x ++ p.toList ++ y = (a ++ s).toList
    rw [show (a ++ s).toList = a.toList ++ s.toList from String.data_append a s, ← hxy]
    simp [List.append_assoc]⟩

theorem strContains_append_right (s b p : String) (h : strContains s p) :
    strContains (s ++ b) p := by
  obtain ⟨x, y, hxy⟩ := h
  exact ⟨x, y ++ b.toList, by
    show x ++ p.toList ++ (y ++ b.toList) = (s ++ b).toList
    rw [show (s ++ b).toList = s.toList ++ b.toList from String.data_append s b, ← hxy]
    simp [List.append_assoc]⟩

theorem strContains_mk2 (x p y : String) : strContains (x ++ p ++ y) p :=
  ⟨x.toList, y.toList, by
    show x.toList ++ p.toList ++ y.toList = (x ++ p ++ y).toList
    show x.toList ++ p.toList ++ y.toList = (x ++ p ++ y).data
    simp [String.data_append]⟩

/-- C8 (amended): when the first element's tags include a nonempty
`brand:wikidata = wd`, the rendered popup contains a link to
`https://www.wikidata.org/wiki/{wd}`; when the tag is absent, the popup equals
the template with the Wikidata slot empty, so the dedicated Wikidata anchor is
omitted (links injected through other tag values, such as `website` or
`source_ref`, may still point at Wikidata). -/
theorem popup_wikidata_link (tags : List (String × String)) :
    (∀ wd, lookupTag tags "brand:wikidata" = some wd → wd ≠ "" →
      strContains (mkPopupHTML tags) ("https://www.wikidata.org/wiki/" ++ wd)) ∧
    (lookupTag tags "brand:wikidata" = none →
      mkPopupHTML tags = mkPopupNoWikidata tags) := by
  constructor
  · intro wd h hne
    have hlit : ("<div><a href=\"" : String) ++ "https://www.wikidata.org/wiki/" =
        "<div><a href=\"https://www.wikidata.org/wiki/" := rfl
    have hwb : wikidataBlock (some wd) =
        "<div><a href=\"" ++ ("https://www.wikidata.org/wiki/" ++ wd) ++
          "\" target=\"_blank\" style=\"color: #1a73e8; text-decoration: none;\">Wikidataを見に行く</a></div>" := by
      rw [← strAppend_assoc, hlit]
      simp [wikidataBlock, hne]
    unfold mkPopupHTML
    rw [h, hwb]
    exact strContains_append_right _ _ _ (strContains_append_right _ _ _
      (strContains_append_right _ _ _ (strContains_append_right _ _ _
        (strContains_append_left _ _ _ (strContains_mk2 _ _ _)))))
  · intro h
    unfold mkPopupHTML mkPopupNoWikidata
    rw [h]
    rfl

set_option maxRecDepth 4000 in
theorem popup_wikidata_link_witness :
    strContains (mkPopupHTML [("brand:wikidata", "Q123")])
      ("https://www.wikidata.org/wiki/" ++ "Q123") ∧
    mkPopupHTML [("shop", "bakery")] = mkPopupNoWikidata [("shop", "bakery")] :=
  ⟨(popup_wikidata_link [("brand:wikidata", "Q123")]).1 "Q123" (by decide) (by decide),
    (popup_wikidata_link [("shop", "bakery")]).2 (by decide)⟩

set_option maxRecDepth 40000 in
/-- C8 counterexample: with tags holding only a website entry whose value is
the URL https://www.wikidata.org/wiki/Q1, the first element lacks
`brand:wikidata`, yet the rendered popup does contain a link to Wikidata — the
website anchor — so the popup is not free of Wikidata links. -/
theorem popup_wikidata_counterexample :
    lookupTag [("website", "https://www.wikidata.org/wiki/Q1")] "brand:wikidata" = none ∧
    strContains (mkPopupHTML [("website", "https://www.wikidata.org/wiki/Q1")])
      "<a href=\"https://www.wikidata.org/wiki/Q1\" target=\"_blank\">" := by
  decide

/-- C3 counterexample: `~` is a printable, unreserved character, yet the round
trip percent-encodes it: parsing the fragment `a=~` and writing it back yields
`a=%7E`, not `a=~`. -/
theorem hash_roundtrip_counterexample :
    hashRoundTrip ['a', '=', '~'] = ['a', '=', '%', '7', 'E'] ∧
    hashRoundTrip ['a', '=', '~'] ≠ ['a', '=', '~'] := by
  decide

/-- C3 (amended): `updateHash(parseHash())` reproduces the fragment exactly for
every well-formed fragment whose keys and values consist of characters from the
urlencoded safe set (ASCII alphanumerics, `*`, `-`, `.`, `_`) or `/`; other
printable unreserved characters (such as `~`, space or `%`) are percent-encoded
on serialization, so for them the round trip is not the identity. -/
theorem hash_roundtrip_good (ps : List (List Char × List Char))
    (h : ∀ kv ∈ ps, (∀ c ∈ kv.1, goodChar c = true) ∧ ∀ c ∈ kv.2, goodChar c = true) :
    hashRoundTrip (rawFragment ps) = rawFragment ps := by
  unfold hashRoundTrip
  rw [parseQS_rawFragment ps h, writeHash_rawFragment ps h]

theorem hash_roundtrip_good_witness :
    hashRoundTrip (['s', 't', 'y', 'l', 'e', '=', 'g', '/', 'b', '&', 'm', 'a', 'p', '=',
      '6', '/', '3', '5', '.', '6', '/', '1', '3', '9', '.', '7']) =
      (['s', 't', 'y', 'l', 'e', '=', 'g', '/', 'b', '&', 'm', 'a', 'p', '=',
      '6', '/', '3', '5', '.', '6', '/', '1', '3', '9', '.', '7']) := by
  have h := hash_roundtrip_good
    [(['s', 't', 'y', 'l', 'e'], ['g', '/', 'b']),
     (['m', 'a', 'p'], ['6', '/', '3', '5', '.', '6', '/', '1', '3', '9', '.', '7'])]
    (by decide)
  simpa using h

/-- C10: on every moveend the zoom persisted to local storage is the raw
unrounded zoom reported by the map, while the zoom encoded into the hash `map`
value is the ceiling of the zoom rounded to two decimals; at rawZoom = 6.5 the
two state holders record different zoom values. -/
theorem moveend_zoom_divergence :
    (∀ rawZoom lat lng : ℚ,
      (onMoveend rawZoom lat lng).savedInput.z = some (.num rawZoom) ∧
      (onMoveend rawZoom lat lng).zStr = ⌈((jsRound (rawZoom * 100) : ℚ) / 100)⌉) ∧
    ((onMoveend 6.5 35 139).savedInput.z = some (.num 6.5) ∧
      (onMoveend 6.5 35 139).zStr = 7 ∧ ((7 : ℚ) ≠ 6.5)) := by
  refine ⟨fun rawZoom lat lng => ⟨rfl, rfl⟩, rfl, ?_, by norm_num⟩
  show ⌈((jsRound ((6.5 : ℚ) * 100) : ℚ) / 100)⌉ = 7
  have h1 : jsRound ((6.5 : ℚ) * 100) = 650 := by
    unfold jsRound
    norm_num
  rw [h1]
  norm_num [Int.ceil_eq_iff]

end MapsGeolonia
